import Mathlib

/-!
Verification of the Proactive Engagement Engine of the
`astrbot_plugin_InitiativeDialogue` repository.

The Python modules under `core/initiative_dialogue_core.py`, `main.py`,
`utils/task_manager.py`, `utils/user_manager.py` and `utils/data_loader.py`
are shallowly embedded below.  Python `dict`s keyed by user id become
association lists `List (String × β)` accessed through `List.lookup`
(Python dict keys are unique; theorems that need uniqueness take a
`Nodup` hypothesis on the key list).  Python `set`s of user ids become
`List String` with insert/discard, or `Finset String` at the persistence
boundary.  `datetime.datetime` values become either plain integer
seconds (where only differences matter, in the poller) or a structured
`Datetime` record (where the ISO textual round trip matters, in the
persistence layer).  External collaborators (message generation and
delivery, the event-loop scheduler's randomness) are parameters.
-/

namespace InitiativeDialogue

/-! ## Association-list primitives modelling Python dict operations -/

/-- Remove every binding of key `k` (dict keys are unique, so this models
removing the one binding of `k` when present). -/
def derase {β : Type} : List (String × β) → String → List (String × β)
  | [], _ => []
  | (a, b) :: t, k => if a = k then derase t k else (a, b) :: derase t k

/-- `d[k] = v` on a Python dict: replace any binding of `k`, keep the rest. -/
def dset {β : Type} (l : List (String × β)) (k : String) (v : β) :
    List (String × β) :=
  (k, v) :: derase l k

/-- `d.pop(k, None)` on a Python dict: drop any binding of `k`. -/
def dpop {β : Type} (l : List (String × β)) (k : String) :
    List (String × β) :=
  derase l k

theorem lookup_derase {β : Type} (l : List (String × β)) (k k' : String) :
    (derase l k).lookup k' = if k' = k then none else l.lookup k' := by
  induction l with
  | nil => simp [derase, List.lookup]
  | cons a t ih =>
    obtain ⟨a1, a2⟩ := a
    by_cases hak : a1 = k
    · subst hak
      rw [show derase ((a1, a2) :: t) a1 = derase t a1 from by simp [derase]]
      by_cases hk : k' = a1
      · subst hk; rw [ih]; simp
      · have hb : (k' == a1) = false := by simp [hk]
        simp [ih, hk, List.lookup, hb]
    · rw [show derase ((a1, a2) :: t) k = (a1, a2) :: derase t k from by
        simp [derase, hak]]
      by_cases hk : k' = a1
      · have hb : (k' == a1) = true := by simp [hk]
        have hkk : ¬k' = k := fun hc => hak ((hk.symm.trans hc) ▸ rfl)
        simp [List.lookup, hb, hkk]
      · have hb : (k' == a1) = false := by simp [hk]
        simp [List.lookup, hb, ih]

theorem lookup_dset {β : Type} (l : List (String × β)) (k k' : String) (v : β) :
    (dset l k v).lookup k' = if k' = k then some v else l.lookup k' := by
  unfold dset
  by_cases h : k' = k
  · simp [List.lookup, h]
  · have hb : (k' == k) = false := by simp [h]
    simp [List.lookup, hb, h, lookup_derase]

theorem lookup_dpop {β : Type} (l : List (String × β)) (k k' : String) :
    (dpop l k).lookup k' = if k' = k then none else l.lookup k' := by
  unfold dpop; exact lookup_derase l k k'

/-- If `k` has no binding, no pair of the list carries key `k`. -/
theorem not_mem_of_lookup_eq_none {β : Type} {l : List (String × β)}
    {k : String} (h : l.lookup k = none) :
    ∀ p ∈ l, p.1 ≠ k := by
  induction l with
  | nil => intro p hp; cases hp
  | cons a t ih =>
    intro p hp
    obtain ⟨a1, a2⟩ := a
    by_cases hk : k = a1
    · simp [List.lookup, hk] at h
    · have hb : (k == a1) = false := by simp [hk]
      simp only [List.lookup, hb] at h
      rcases List.mem_cons.mp hp with hp | hp
      · subst hp; exact fun hc => hk hc.symm
      · exact ih h p hp

/-- With duplicate-free keys, the binding of `k` is the unique pair keyed `k`. -/
theorem filter_key_eq_of_lookup {β : Type} {l : List (String × β)}
    {k : String} {v : β} (hnd : (l.map Prod.fst).Nodup)
    (h : l.lookup k = some v) :
    l.filter (fun p => p.1 = k) = [(k, v)] := by
  induction l with
  | nil => simp [List.lookup] at h
  | cons a t ih =>
    obtain ⟨a1, a2⟩ := a
    simp only [List.map_cons, List.nodup_cons] at hnd
    by_cases hk : k = a1
    · subst hk
      have hb : (k == k) = true := by simp
      simp only [List.lookup, hb] at h
      have hv : a2 = v := by simpa using h
      subst hv
      have hrest : t.filter (fun p => p.1 = k) = [] := by
        apply List.filter_eq_nil_iff.mpr
        intro p hp
        simp only [decide_eq_true_eq]
        intro hc
        exact hnd.1 (hc ▸ (List.mem_map_of_mem Prod.fst hp))
      simp [List.filter_cons, hrest]
    · have hb : (k == a1) = false := by simp [hk]
      simp only [List.lookup, hb] at h
      have hd : (decide ((a1, a2).1 = k)) = false := by
        simp; exact fun hc => hk hc.symm
      simp [List.filter_cons, hd, ih hnd.2 h]

/-- If `k` has no binding, filtering for key `k` yields nothing. -/
theorem filter_key_eq_nil_of_lookup_none {β : Type} {l : List (String × β)}
    {k : String} (h : l.lookup k = none) :
    l.filter (fun p => p.1 = k) = [] := by
  apply List.filter_eq_nil_iff.mpr
  intro p hp
  simpa using not_mem_of_lookup_eq_none h p hp

/-! ## Core data model (`core/initiative_dialogue_core.py`) -/

/-- Configuration drawn from `time_settings` and `whitelist`
(`InitiativeDialogueCore.__init__`, lines 34-52). -/
structure Config where
  inactive_time_seconds : Int
  max_response_delay_seconds : Int
  time_limit_enabled : Bool
  activity_start_hour : Nat
  activity_end_hour : Nat
  max_consecutive_messages : Nat
  whitelist_enabled : Bool
  whitelist_users : List String
deriving DecidableEq, Repr

/-- One entry of `self.user_records` / `self.last_initiative_messages`:
`{"timestamp": ..., "conversation_id": ..., "unified_msg_origin": ...}`.
`timestamp` is `Option` because the poller guards `record.get("timestamp")`
with `if not last_active: continue` (line 204-206). -/
structure UserRecord where
  timestamp : Option Int
  conversation_id : String
  unified_msg_origin : String
deriving DecidableEq, Repr

/-- One entry of `self.last_initiative_types`:
`{"count": ..., "time_period": ..., "timestamp": ...}` (lines 345-349). -/
structure TypeInfo where
  count : Nat
  time_period : String
  timestamp : Int
deriving DecidableEq, Repr

/-- The mutable per-user state owned by `InitiativeDialogueCore`
(lines 72-81). -/
structure CoreState where
  user_records : List (String × UserRecord)
  consecutive_message_count : List (String × Nat)
  last_initiative_messages : List (String × UserRecord)
  last_initiative_types : List (String × TypeInfo)
  users_received_initiative : List String
deriving DecidableEq, Repr

/-- A nudge task handed to the task manager by one poller tick
(the `schedule_task` call at lines 221-230). -/
structure Nudge where
  user_id : String
  conversation_id : String
  unified_msg_origin : String
deriving DecidableEq, Repr

/-! ## Inactivity poller (`_check_inactive_conversations_loop`, lines 168-239) -/

/-- The active-hours gate of one tick (lines 176-184): the tick body is
skipped when the time limit is on and the wall-clock hour is outside
`[activity_start_hour, activity_end_hour)`. -/
def tickSkipped (cfg : Config) (hour : Nat) : Bool :=
  cfg.time_limit_enabled &&
    !(decide (cfg.activity_start_hour ≤ hour) && decide (hour < cfg.activity_end_hour))

/-- The per-user gates of one tick (lines 191-212): skip when the whitelist
excludes the user, when `consecutive_message_count.get(user_id, 0)` is at
the cap, when the record has no timestamp, or when the inactivity has not
yet reached `inactive_time_seconds`.  `counts` is the value of
`self.consecutive_message_count`, which the tick body never mutates. -/
def shouldNudge (cfg : Config) (counts : List (String × Nat)) (now : Int)
    (uid : String) (r : UserRecord) : Bool :=
  if cfg.whitelist_enabled && !(cfg.whitelist_users.contains uid) then false
  else if cfg.max_consecutive_messages ≤ ((counts.lookup uid).getD 0) then false
  else
    match r.timestamp with
    | none => false
    | some t => decide (cfg.inactive_time_seconds ≤ now - t)

/-- One iteration body of the poller loop (lines 176-233).  The Python
loop iterates over a snapshot `list(self.user_records.items())`, schedules
one task per user passing the gates, and pops each such user from the live
dict; because dict keys are unique this is the same as partitioning the
records by `shouldNudge`.  Returns the new state and the scheduled nudges. -/
def checkTick (cfg : Config) (now : Int) (hour : Nat) (st : CoreState) :
    CoreState × List Nudge :=
  if tickSkipped cfg hour then (st, [])
  else
    let gate := fun (p : String × UserRecord) =>
      shouldNudge cfg st.consecutive_message_count now p.1 p.2
    ({ st with user_records := st.user_records.filter (fun p => !gate p) },
     (st.user_records.filter gate).map
       (fun p => ⟨p.1, p.2.conversation_id, p.2.unified_msg_origin⟩))

/-! ## Send action (`_send_initiative_message`, lines 241-427) -/

/-- Outcome of the external generation/delivery collaborator as observed
at the call site: `generate_and_send_message`
(`utils/message_manager.py`) returns `True` on confirmed delivery
(line 236) and `False` on every failure — missing conversation
(line 83), empty LLM output (line 239), or any ordinary exception,
which it catches itself and converts to `False` (lines 241-245).  It
never returns `None`.  `raised` models the call unwinding exceptionally
(task cancellation, which is a `BaseException` and passes through the
collaborator's `except Exception`), skipping every mutation of the
caller. -/
inductive DeliveryOutcome
  | returned (result : Bool)
  | raised
deriving DecidableEq, Repr

/-- The count the send action starts from (lines 256-270): the `count`
field of `last_initiative_types[user_id]` when that record exists,
otherwise `consecutive_message_count.get(user_id, 0)`. -/
def currentCount (st : CoreState) (uid : String) : Nat :=
  match st.last_initiative_types.lookup uid with
  | some info => info.count
  | none => (st.consecutive_message_count.lookup uid).getD 0

/-- The send action fired by the task manager (lines 241-427).  Prompt
selection and context building (lines 283-342) produce only the text sent
to the external collaborator and touch no engine state, so they are not
modelled; `outcome` stands for the collaborator's behaviour, `now` for
`datetime.datetime.now()` at the update site and `tp` for the computed
time-period string.  An exceptional unwind of the call leaves the state
untouched (no mutation precedes the call inside the `try`).  A returned
value is checked by `if result is None` (line 363) — but the
collaborator returns a Bool, never `None`, so the guard (modelled by the
`isNone` test below) never fires and a `False` (failed delivery) falls
through to the commit exactly like `True`: the count goes to both
stores, the message and mark are recorded, and the user record is
re-inserted while the count is still below the cap (lines 367-411). -/
def sendInitiativeMessage (cfg : Config) (st : CoreState)
    (uid cid umo : String) (outcome : DeliveryOutcome) (now : Int)
    (tp : String) : CoreState :=
  if cfg.whitelist_enabled && !(cfg.whitelist_users.contains uid) then st
  else
    let next_count := currentCount st uid + 1
    if cfg.max_consecutive_messages < next_count then st
    else
      match outcome with
      | .raised => st
      | .returned result =>
        if (some result).isNone then st
        else
          let st1 : CoreState :=
            { st with
              consecutive_message_count :=
                dset st.consecutive_message_count uid next_count,
              last_initiative_types :=
                dset st.last_initiative_types uid ⟨next_count, tp, now⟩,
              last_initiative_messages :=
                dset st.last_initiative_messages uid ⟨some now, cid, umo⟩,
              users_received_initiative :=
                st.users_received_initiative.insert uid }
          if next_count < cfg.max_consecutive_messages then
            { st1 with user_records := dset st1.user_records uid ⟨some now, cid, umo⟩ }
          else st1

/-! ## Inbound message handling (`main.py` lines 128-189 and
`handle_user_message`, core lines 429-452) -/

/-- Python `str.strip()` default whitespace: the characters CPython's
`Py_UNICODE_ISSPACE` accepts — ASCII whitespace 0x09-0x0D and 0x20, the
C0 separators 0x1C-0x1F, NEL 0x85, NBSP 0xA0, Ogham space 0x1680, the
U+2000-U+200A spaces, line/paragraph separators U+2028/U+2029, narrow
no-break U+202F, medium mathematical U+205F, and ideographic space
U+3000. -/
def pyWhitespace (c : Char) : Bool :=
  (9 ≤ c.toNat && c.toNat ≤ 13) || (28 ≤ c.toNat && c.toNat ≤ 31) ||
  c.toNat == 32 || c.toNat == 133 || c.toNat == 160 || c.toNat == 5760 ||
  (8192 ≤ c.toNat && c.toNat ≤ 8202) || c.toNat == 8232 ||
  c.toNat == 8233 || c.toNat == 8239 || c.toNat == 8287 ||
  c.toNat == 12288

/-- `not msg or not msg.strip()`: the text is empty or all whitespace
(Unicode whitespace, as Python strips). -/
def strippedEmpty (s : String) : Bool :=
  s.data.all pyWhitespace

def isPrefixList : List Char → List Char → Bool
  | [], _ => true
  | _ :: _, [] => false
  | a :: as, b :: bs => a == b && isPrefixList as bs

def hasSubstr (pat : List Char) : List Char → Bool
  | [] => pat.isEmpty
  | c :: rest => isPrefixList pat (c :: rest) || hasSubstr pat rest

/-- Substring test, modelling Python's `pat in s` for the marker
patterns. -/
def containsSub (s pat : String) : Bool :=
  hasSubstr pat.data s.data

/-- The three guards of `on_private_message` (main.py lines 132-155): the
text must be non-empty after stripping whitespace, must not come from the
bot itself (`self_id` is `none` when the adapter exposes no self id, in
which case the echo guard passes), and must not carry a system-prompt
marker. -/
def qualifies (msg : String) (selfId : Option String) (senderId : String) :
    Bool :=
  !(strippedEmpty msg) &&
  !(match selfId with
    | some sid => sid == senderId
    | none => false) &&
  !(containsSub msg "[SYS_PROMPT]" || containsSub msg "[系统指令:")

/-- `InitiativeDialogueCore.handle_user_message` (lines 429-452): refresh
the user's activity record unconditionally. -/
def handleUserMessage (st : CoreState) (uid : String) (now : Int)
    (cid umo : String) : CoreState :=
  { st with user_records := dset st.user_records uid ⟨some now, cid, umo⟩ }

/-- The reset block of `on_private_message` (main.py lines 166-181): when
the user has an outstanding nudge, zero `consecutive_message_count`, zero
the `count` inside `last_initiative_types` when an entry exists, and
discard the received-initiative mark. -/
def resetAfterReply (st : CoreState) (uid : String) : CoreState :=
  if uid ∈ st.users_received_initiative then
    let st1 := { st with
      consecutive_message_count := dset st.consecutive_message_count uid 0 }
    let st2 :=
      match st1.last_initiative_types.lookup uid with
      | some info =>
        let types2 :=
          dset st1.last_initiative_types uid ⟨0, info.time_period, info.timestamp⟩
        { st1 with last_initiative_types := types2 }
      | none => st1
    let received2 := st2.users_received_initiative.filter (fun u => u ≠ uid)
    { st2 with users_received_initiative := received2 }
  else st

/-- `on_private_message` (main.py lines 128-189): a non-qualifying event
returns before touching any state; a qualifying one refreshes the record
and then runs the reset block. -/
def onPrivateMessage (st : CoreState) (msg : String) (selfId : Option String)
    (senderId : String) (now : Int) (cid umo : String) : CoreState :=
  if qualifies msg selfId senderId then
    resetAfterReply (handleUserMessage st senderId now cid umo) senderId
  else st

/-! ## Step relation over the engine state, for the cap invariant -/

/-- One interleaving step of the system: a poller tick, a firing send
action, or an inbound private message. -/
inductive CoreStep
  | tick (now : Int) (hour : Nat)
  | send (uid cid umo : String) (outcome : DeliveryOutcome) (now : Int)
      (tp : String)
  | message (msg : String) (selfId : Option String) (senderId : String)
      (now : Int) (cid umo : String)

def applyStep (cfg : Config) (st : CoreState) : CoreStep → CoreState
  | .tick now hour => (checkTick cfg now hour st).1
  | .send uid cid umo outcome now tp =>
      sendInitiativeMessage cfg st uid cid umo outcome now tp
  | .message msg selfId senderId now cid umo =>
      onPrivateMessage st msg selfId senderId now cid umo

def runSteps (cfg : Config) (st : CoreState) (steps : List CoreStep) :
    CoreState :=
  steps.foldl (applyStep cfg) st

/-- Both count stores bounded by the configured cap. -/
def CountsBounded (cfg : Config) (st : CoreState) : Prop :=
  (∀ u c, st.consecutive_message_count.lookup u = some c →
    c ≤ cfg.max_consecutive_messages) ∧
  (∀ u info, st.last_initiative_types.lookup u = some info →
    info.count ≤ cfg.max_consecutive_messages)

/-! ## Delayed task registry (`utils/task_manager.py`) -/

/-- Observable status of one scheduled `delayed_task` coroutine
(lines 56-67): still inside `asyncio.sleep` with some remaining delay,
done after running (or attempting) `coroutine_func`, or done after
observing `CancelledError` at the sleep suspend point, in which case
`coroutine_func` never ran. -/
inductive TStatus
  | sleeping (remaining : Nat)
  | finished
  | cancelled
deriving DecidableEq, Repr

/-- `task.done()` (lines 109): a task is done once it finished or was
cancelled. -/
def TStatus.isDone : TStatus → Bool
  | .sleeping _ => false
  | .finished => true
  | .cancelled => true

/-- A sleeping task whose delay has fully elapsed runs its action at the
next event-loop step. -/
def TStatus.isFiring : TStatus → Bool
  | .sleeping 0 => true
  | _ => false

/-- State of the registry: `parent._message_tasks` (task id to task) plus
the side-effect log of actions that have actually executed, the
observable the tests count. -/
structure TMState where
  tasks : List (String × TStatus)
  fired : List String
deriving DecidableEq, Repr

/-- `schedule_task` (lines 26-87): store a fresh task whose coroutine
sleeps for the computed delay before calling the action. -/
def scheduleTask (st : TMState) (id : String) (delay : Nat) : TMState :=
  { st with tasks := dset st.tasks id (.sleeping delay) }

/-- `cancel_task` (lines 98-114): when the id is known and the task is not
done, request cancellation — the coroutine is parked at `asyncio.sleep`,
so it observes `CancelledError` there and unwinds without running the
action — and return `True`; otherwise touch nothing and return `False`. -/
def cancelTask (st : TMState) (id : String) : TMState × Bool :=
  match st.tasks.lookup id with
  | some status =>
    if status.isDone then (st, false)
    else ({ st with tasks := dset st.tasks id .cancelled }, true)
  | none => (st, false)

/-- One unit of event-loop time: every sleeping task counts down, and a
task whose sleep has elapsed runs its action (appending its id to the
side-effect log) and becomes done. -/
def tickStatus : TStatus → TStatus
  | .sleeping (n + 1) => .sleeping n
  | .sleeping 0 => .finished
  | s => s

def timeStep (st : TMState) : TMState :=
  { tasks := st.tasks.map (fun p => (p.1, tickStatus p.2)),
    fired := st.fired ++ (st.tasks.filter (fun p => p.2.isFiring)).map Prod.fst }

/-- The done callback `remove_task` (lines 73-77): a completed task is
dropped from the registry. -/
def removeDone (st : TMState) (id : String) : TMState :=
  match st.tasks.lookup id with
  | some status => if status.isDone then { st with tasks := dpop st.tasks id } else st
  | none => st

/-- Event-loop interleavings the registry is exposed to after a
cancellation: time passing, done callbacks, further cancellations, and
scheduling of fresh tasks (with fresh ids — ids embed an issue timestamp,
so they are never reused). -/
inductive TMStep
  | time
  | callback (id : String)
  | cancel (id : String)
  | schedule (id : String) (delay : Nat)

def applyTMStep (st : TMState) : TMStep → TMState
  | .time => timeStep st
  | .callback id => removeDone st id
  | .cancel id => (cancelTask st id).1
  | .schedule id delay => scheduleTask st id delay

def runTMSteps (st : TMState) (steps : List TMStep) : TMState :=
  steps.foldl applyTMStep st

/-- After a cancellation of `id`, no binding of `id` is a live sleeping
task, and `id`'s action has not run. -/
def CancelledOut (id : String) (st : TMState) : Prop :=
  (∀ p ∈ st.tasks, p.1 = id → ¬ (∃ n, p.2 = TStatus.sleeping n)) ∧
  id ∉ st.fired

/-! ## The poller loop's exception envelope (C2) -/

/-- Outcome of one tick body of `_check_inactive_conversations_loop`. -/
inductive TickOutcome
  | ok
  | raises
deriving DecidableEq, Repr

/-- Control flow of `_check_inactive_conversations_loop` (lines 168-239):
the `try` block wraps the whole `while True`, so an exception thrown by a
tick body propagates out of the `while`, is caught by the outer
`except Exception` (line 238), logged once, and the coroutine returns —
the loop never resumes.  Given the sequence of tick-body outcomes the
scheduler would offer, returns how many tick bodies actually ran and
whether an exception was caught and logged. -/
def runCheckLoop : List TickOutcome → Nat × Bool
  | [] => (0, false)
  | .ok :: rest =>
    let r := runCheckLoop rest
    (r.1 + 1, r.2)
  | .raises :: _ => (1, true)

/-! ## Timestamps and the persistence layer (`utils/data_loader.py`)

The engine stores naive `datetime.datetime` values and round-trips them
through `datetime.isoformat()` / `datetime.fromisoformat()`.  `Datetime`
models such a value; `Datetime.isoformat` renders exactly the strings
CPython's `isoformat` produces for naive datetimes (microseconds omitted
when zero), and `fromisoformat` parses them back, returning `none` where
CPython raises `ValueError`. -/

structure Datetime where
  year : Nat
  month : Nat
  day : Nat
  hour : Nat
  minute : Nat
  second : Nat
  microsecond : Nat
deriving DecidableEq, Repr

def isLeapYear (y : Nat) : Bool :=
  (y % 4 == 0 && y % 100 != 0) || (y % 400 == 0)

def daysInMonth (y m : Nat) : Nat :=
  if m = 2 then (if isLeapYear y then 29 else 28)
  else if m = 4 ∨ m = 6 ∨ m = 9 ∨ m = 11 then 30
  else 31

/-- The constructor invariant of Python `datetime.datetime` objects. -/
def Datetime.validB (d : Datetime) : Bool :=
  decide (1 ≤ d.year) && decide (d.year ≤ 9999) &&
  decide (1 ≤ d.month) && decide (d.month ≤ 12) &&
  decide (1 ≤ d.day) && decide (d.day ≤ daysInMonth d.year d.month) &&
  decide (d.hour ≤ 23) && decide (d.minute ≤ 59) && decide (d.second ≤ 59) &&
  decide (d.microsecond ≤ 999999)

def twoDigits (n : Nat) : List Char :=
  [Nat.digitChar (n / 10), Nat.digitChar (n % 10)]

def fourDigits (n : Nat) : List Char :=
  [Nat.digitChar (n / 1000), Nat.digitChar (n / 100 % 10),
   Nat.digitChar (n / 10 % 10), Nat.digitChar (n % 10)]

def sixDigits (n : Nat) : List Char :=
  [Nat.digitChar (n / 100000), Nat.digitChar (n / 10000 % 10),
   Nat.digitChar (n / 1000 % 10), Nat.digitChar (n / 100 % 10),
   Nat.digitChar (n / 10 % 10), Nat.digitChar (n % 10)]

def isoformatChars (d : Datetime) : List Char :=
  fourDigits d.year ++ '-' :: twoDigits d.month ++ '-' :: twoDigits d.day ++
  'T' :: twoDigits d.hour ++ ':' :: twoDigits d.minute ++
  ':' :: twoDigits d.second ++
  (if d.microsecond = 0 then [] else '.' :: sixDigits d.microsecond)

def Datetime.isoformat (d : Datetime) : String :=
  String.mk (isoformatChars d)

def charToDigit (c : Char) : Option Nat :=
  if '0' ≤ c ∧ c ≤ '9' then some (c.toNat - '0'.toNat) else none

def parse2 (a b : Char) : Option Nat := do
  let x ← charToDigit a
  let y ← charToDigit b
  pure (10 * x + y)

def parse4 (a b c d : Char) : Option Nat := do
  let x ← charToDigit a
  let y ← charToDigit b
  let z ← charToDigit c
  let w ← charToDigit d
  pure (1000 * x + 100 * y + 10 * z + w)

def parse6 (a b c d e f : Char) : Option Nat := do
  let x ← charToDigit a
  let y ← charToDigit b
  let z ← charToDigit c
  let w ← charToDigit d
  let v ← charToDigit e
  let u ← charToDigit f
  pure (100000 * x + 10000 * y + 1000 * z + 100 * w + 10 * v + u)

/-- The optional fractional-seconds tail of an ISO string. -/
def parseFrac : List Char → Option Nat
  | [] => some 0
  | '.' :: u1 :: u2 :: u3 :: u4 :: u5 :: u6 :: [] => parse6 u1 u2 u3 u4 u5 u6
  | _ => none

def fromisoChars : List Char → Option Datetime
  | y1 :: y2 :: y3 :: y4 :: '-' :: m1 :: m2 :: '-' :: a1 :: a2 :: 'T' ::
      h1 :: h2 :: ':' :: b1 :: b2 :: ':' :: c1 :: c2 :: rest => do
    let y ← parse4 y1 y2 y3 y4
    let mo ← parse2 m1 m2
    let da ← parse2 a1 a2
    let h ← parse2 h1 h2
    let mi ← parse2 b1 b2
    let s ← parse2 c1 c2
    let us ← parseFrac rest
    let d : Datetime := ⟨y, mo, da, h, mi, s, us⟩
    if d.validB then some d else none
  | _ => none

/-- `datetime.datetime.fromisoformat`, as used by `load_data_from_storage`;
`none` models the `ValueError` branch. -/
def fromisoformat (s : String) : Option Datetime :=
  fromisoChars s.data

/-! Per-field timestamp loaders of `load_data_from_storage`.  Each
returns the loaded value together with whether a warning was logged for a
substitution.  The three record-shaped fields (lines 41-87) catch the
`ValueError` and assign `datetime.datetime.now()` with no log call in the
handler; the `random_daily_data.last_sharing_time` field (lines 89-111)
does the same substitution but calls `logger.warning` first. -/

/-- `user_records[*]["timestamp"]` load, lines 41-53. -/
def loadUserRecordTimestamp (s : String) (now : Datetime) : Datetime × Bool :=
  match fromisoformat s with
  | some d => (d, false)
  | none => (now, false)

/-- `last_initiative_messages[*]["timestamp"]` load, lines 55-70. -/
def loadLastInitiativeMessageTimestamp (s : String) (now : Datetime) :
    Datetime × Bool :=
  match fromisoformat s with
  | some d => (d, false)
  | none => (now, false)

/-- `last_initiative_types[*]["timestamp"]` load, lines 72-87. -/
def loadLastInitiativeTypeTimestamp (s : String) (now : Datetime) :
    Datetime × Bool :=
  match fromisoformat s with
  | some d => (d, false)
  | none => (now, false)

/-- `random_daily_data.last_sharing_time[*]` load, lines 89-111: the only
substitution accompanied by a `logger.warning`. -/
def loadLastSharingTime (s : String) (now : Datetime) : Datetime × Bool :=
  match fromisoformat s with
  | some d => (d, false)
  | none => (now, true)

/-- The claim "every timestamp substitution on load is logged", as a
proposition over the modelled loaders. -/
def EverySubstitutionLogged : Prop :=
  ∀ s now, fromisoformat s = none →
    (loadUserRecordTimestamp s now).2 = true ∧
    (loadLastInitiativeMessageTimestamp s now).2 = true ∧
    (loadLastInitiativeTypeTimestamp s now).2 = true ∧
    (loadLastSharingTime s now).2 = true

/-! ## Whole-state persistence round trip (C6)

`save_data_to_storage` (lines 155-205) writes every `datetime` through
`isoformat` (`_prepare_records_for_save`, lines 207-231) and the
`users_received_initiative` set through `list(...)` (line 177-179);
`load_data_from_storage` parses the strings back and rebuilds the set
with `set(...)` (lines 119-121).  `PersistFields` collects exactly the
timestamp-valued and set-valued state C6 is about. -/

structure PersistFields where
  user_records : List (String × Datetime)
  last_initiative_messages : List (String × Datetime)
  last_initiative_types : List (String × Datetime)
  last_sharing_time : List (String × Datetime)
  users_received_initiative : Finset String
deriving DecidableEq

/-- The durable JSON image of those fields. -/
structure SavedFields where
  user_records : List (String × String)
  last_initiative_messages : List (String × String)
  last_initiative_types : List (String × String)
  last_sharing_time : List (String × String)
  users_received_initiative : List String
deriving DecidableEq, Repr

def savePersist (p : PersistFields) : SavedFields :=
  { user_records := p.user_records.map (fun q => (q.1, q.2.isoformat)),
    last_initiative_messages :=
      p.last_initiative_messages.map (fun q => (q.1, q.2.isoformat)),
    last_initiative_types :=
      p.last_initiative_types.map (fun q => (q.1, q.2.isoformat)),
    last_sharing_time := p.last_sharing_time.map (fun q => (q.1, q.2.isoformat)),
    users_received_initiative :=
      p.users_received_initiative.sort (fun a b => a ≤ b) }

def loadPersist (now : Datetime) (s : SavedFields) : PersistFields :=
  { user_records := s.user_records.map (fun q => (q.1, (fromisoformat q.2).getD now)),
    last_initiative_messages :=
      s.last_initiative_messages.map (fun q => (q.1, (fromisoformat q.2).getD now)),
    last_initiative_types :=
      s.last_initiative_types.map (fun q => (q.1, (fromisoformat q.2).getD now)),
    last_sharing_time :=
      s.last_sharing_time.map (fun q => (q.1, (fromisoformat q.2).getD now)),
    users_received_initiative := s.users_received_initiative.toFinset }

/-! ## Eligibility sampler (`utils/user_manager.py`, lines 86-109) -/

/-- `random.sample(eligible_users, k)` draws `k` elements at `k` distinct
positions of the list.  The positions the random source picks are the
parameter `idx`; `sample` collects the elements at those positions. -/
def sample {α : Type} (l : List α) (idx : List Nat) : List α :=
  idx.filterMap (fun i => l[i]?)

/-- A draw of `k` positions from a list of length `n`, as `random.sample`
produces: distinct in-range positions, exactly `k` of them. -/
@[reducible] def SampleDraw (n k : Nat) (idx : List Nat) : Prop :=
  idx.Nodup ∧ (∀ i ∈ idx, i < n) ∧ idx.length = k

/-- `selection_count = max(min_count, int(user_count * selection_ratio))`
(line 106); `int(...)` truncates a product of nonnegative values, which
is the floor. -/
def selectionCount (n : Nat) (ratio : ℚ) (min_count : Nat) : Nat :=
  max min_count (Int.toNat ⌊(n : ℚ) * ratio⌋)

/-- `select_random_users` (lines 86-109): empty input returns empty;
otherwise `random.sample` draws `min(selection_count, user_count)` users.
`rng k` is the injectable random source's draw of `k` positions. -/
def selectRandomUsers (eligible_users : List (String × UserRecord))
    (selection_ratio : ℚ) (min_count : Nat) (rng : Nat → List Nat) :
    List (String × UserRecord) :=
  if eligible_users.isEmpty then []
  else
    sample eligible_users
      (rng (min (selectionCount eligible_users.length selection_ratio min_count)
        eligible_users.length))

/-! ## Claim theorems -/

/-- C2: the claim says a tick body that throws is caught and logged and
the recurring loop continues with the next tick.  The code catches and
logs, but the `try`/`except` wraps the whole `while True`, so the loop
terminates: with a schedule of two due ticks whose first body raises,
only one tick body ever runs and the exception is logged, where the claim
requires both ticks to run; an all-ok schedule, by contrast, runs every
tick. -/
theorem check_loop_dies_after_one_bad_tick :
    runCheckLoop [TickOutcome.raises, TickOutcome.ok] = (1, true) ∧
    runCheckLoop [TickOutcome.ok, TickOutcome.ok] = (2, false) := by
  exact ⟨rfl, rfl⟩

/-- C4: the claim says a failed generation/delivery leaves
`consecutive_message_count`, `last_initiative_types`,
`last_initiative_messages` and `users_received_initiative` unchanged,
the counter advancing only after confirmed success.  The collaborator
signals failure by returning `False` (`message_manager.py` lines 83,
239, 245 — it never returns `None`), which passes the `result is None`
guard at core line 363, so the code commits every mutation on a failed
delivery exactly as on a success: evaluated at a concrete user with
count 0, a `False`-returning delivery advances the counter to 1, writes
both message records, marks the user as nudged and re-inserts the
tracked record; only an exceptional unwind leaves the state unchanged. -/
theorem send_failed_delivery_still_commits :
    (sendInitiativeMessage ⟨7200, 3600, true, 8, 23, 3, false, []⟩
        ⟨[], [], [], [], []⟩ "u" "c" "m" (DeliveryOutcome.returned false) 10
        "上午").consecutive_message_count.lookup "u" = some 1 ∧
    (sendInitiativeMessage ⟨7200, 3600, true, 8, 23, 3, false, []⟩
        ⟨[], [], [], [], []⟩ "u" "c" "m" (DeliveryOutcome.returned false) 10
        "上午").last_initiative_types.lookup "u" = some ⟨1, "上午", 10⟩ ∧
    (sendInitiativeMessage ⟨7200, 3600, true, 8, 23, 3, false, []⟩
        ⟨[], [], [], [], []⟩ "u" "c" "m" (DeliveryOutcome.returned false) 10
        "上午").last_initiative_messages.lookup "u" = some ⟨some 10, "c", "m"⟩ ∧
    "u" ∈ (sendInitiativeMessage ⟨7200, 3600, true, 8, 23, 3, false, []⟩
        ⟨[], [], [], [], []⟩ "u" "c" "m" (DeliveryOutcome.returned false) 10
        "上午").users_received_initiative ∧
    sendInitiativeMessage ⟨7200, 3600, true, 8, 23, 3, false, []⟩
        ⟨[], [], [], [], []⟩ "u" "c" "m" DeliveryOutcome.raised 10 "上午"
      = ⟨[], [], [], [], []⟩ := by
  decide

/-- C9 counterexample: the claim says a failed delivery returns without
re-inserting the user's `user_records` entry.  With user "u" absent
from the tracked set (the poller removed the record at scheduling time)
and a failed delivery — the collaborator returning `False` — the send
action does re-insert the record. -/
theorem send_failed_delivery_reinserts :
    (⟨[], [], [], [], []⟩ : CoreState).user_records.lookup "u" = none ∧
    (sendInitiativeMessage ⟨7200, 3600, true, 8, 23, 3, false, []⟩
        ⟨[], [], [], [], []⟩ "u" "c" "m" (DeliveryOutcome.returned false) 10
        "上午").user_records.lookup "u" = some ⟨some 10, "c", "m"⟩ := by
  decide

/-- C9 amended: only an exceptional unwind of the delivery call returns
without re-inserting the user's `user_records` entry (so monitoring
stays off until the user speaks again); a failure signalled by the
collaborator's `False` return passes the dead `is None` guard and is
handled exactly like success — for either returned value the record is
re-inserted precisely when the advanced count is still below the cap,
and never at the cap. -/
theorem send_reinsert_policy (cfg : Config) (st : CoreState)
    (uid cid umo : String) (now : Int) (tp : String)
    (hwl : ¬ (cfg.whitelist_enabled = true ∧ uid ∉ cfg.whitelist_users))
    (hcap : currentCount st uid + 1 ≤ cfg.max_consecutive_messages) :
    (sendInitiativeMessage cfg st uid cid umo DeliveryOutcome.raised now tp).user_records
      = st.user_records ∧
    (∀ result : Bool,
      (sendInitiativeMessage cfg st uid cid umo (DeliveryOutcome.returned result)
          now tp).user_records.lookup uid
        = (if currentCount st uid + 1 < cfg.max_consecutive_messages
           then some ⟨some now, cid, umo⟩
           else st.user_records.lookup uid)) := by
  have hnl : ¬ (cfg.max_consecutive_messages < currentCount st uid + 1) :=
    Nat.not_lt.mpr hcap
  refine ⟨?_, ?_⟩
  · simp [sendInitiativeMessage, hwl, hnl]
  · intro result
    by_cases hlt : currentCount st uid + 1 < cfg.max_consecutive_messages
    · simp [sendInitiativeMessage, hwl, hnl, hlt, lookup_dset]
    · simp [sendInitiativeMessage, hwl, hnl, hlt]

theorem send_reinsert_policy_witness :
    (¬ ((⟨7200, 3600, true, 8, 23, 3, false, []⟩ : Config).whitelist_enabled = true ∧
        "alice" ∉ (⟨7200, 3600, true, 8, 23, 3, false, []⟩ : Config).whitelist_users)) ∧
    currentCount ⟨[], [], [], [], []⟩ "alice" + 1 ≤ 3 ∧
    (sendInitiativeMessage ⟨7200, 3600, true, 8, 23, 3, false, []⟩
        ⟨[], [], [], [], []⟩ "alice" "c" "m" DeliveryOutcome.raised 10
        "下午").user_records = ([] : List (String × UserRecord)) ∧
    (sendInitiativeMessage ⟨7200, 3600, true, 8, 23, 3, false, []⟩
        ⟨[], [], [], [], []⟩ "alice" "c" "m" (DeliveryOutcome.returned true) 10
        "下午").user_records.lookup "alice" = some ⟨some 10, "c", "m"⟩ := by
  have h := send_reinsert_policy ⟨7200, 3600, true, 8, 23, 3, false, []⟩
    ⟨[], [], [], [], []⟩ "alice" "c" "m" 10 "下午" (by decide) (by decide)
  refine ⟨by decide, by decide, h.1, ?_⟩
  rw [h.2 true]
  decide

/-- C5 counterexample: the claim requires every parse-failure
substitution on load to be logged, but the `user_records` timestamp
loader substitutes "now" for an unparseable value silently (its
`except ValueError` handler has no log call), so the claim fails at the
unparseable input "not-a-timestamp". -/
theorem not_every_substitution_logged : ¬ EverySubstitutionLogged := by
  intro h
  have hbad : fromisoformat "not-a-timestamp" = none := by decide
  have h1 := (h "not-a-timestamp" ⟨2024, 1, 1, 0, 0, 0, 0⟩ hbad).1
  have h2 : (loadUserRecordTimestamp "not-a-timestamp" ⟨2024, 1, 1, 0, 0, 0, 0⟩).2 = false := by
    decide
  rw [h1] at h2
  cases h2

/-- C5 amended: every timestamp-valued field that fails to parse on load
is substituted with the current time rather than dropped, but only the
`last_sharing_time` substitution is logged; the `user_records`,
`last_initiative_messages` and `last_initiative_types` substitutions are
silent. -/
theorem substitution_policy (s : String) (now : Datetime)
    (h : fromisoformat s = none) :
    loadUserRecordTimestamp s now = (now, false) ∧
    loadLastInitiativeMessageTimestamp s now = (now, false) ∧
    loadLastInitiativeTypeTimestamp s now = (now, false) ∧
    loadLastSharingTime s now = (now, true) := by
  simp [loadUserRecordTimestamp, loadLastInitiativeMessageTimestamp,
    loadLastInitiativeTypeTimestamp, loadLastSharingTime, h]

theorem substitution_policy_witness :
    fromisoformat "not-a-timestamp" = none ∧
    loadUserRecordTimestamp "not-a-timestamp" ⟨2024, 1, 1, 0, 0, 0, 0⟩
      = (⟨2024, 1, 1, 0, 0, 0, 0⟩, false) ∧
    loadLastSharingTime "not-a-timestamp" ⟨2024, 1, 1, 0, 0, 0, 0⟩
      = (⟨2024, 1, 1, 0, 0, 0, 0⟩, true) := by
  have hbad : fromisoformat "not-a-timestamp" = none := by decide
  have h := substitution_policy "not-a-timestamp" ⟨2024, 1, 1, 0, 0, 0, 0⟩ hbad
  exact ⟨hbad, h.1, h.2.2.2⟩

/-- C10: an inbound private message qualifies iff its text is non-empty
after stripping, it is not a recognised bot echo, and it carries no
system-prompt marker; a non-qualifying message changes nothing, while a
qualifying one always refreshes the activity record and performs the
count reset (both stores, mark discarded) exactly when the user is in
`users_received_initiative`. -/
theorem private_message_semantics (st : CoreState) (msg : String)
    (selfId : Option String) (senderId : String) (now : Int)
    (cid umo : String) :
    (qualifies msg selfId senderId =
      (!(strippedEmpty msg) &&
       !(match selfId with | some sid => sid == senderId | none => false) &&
       !(containsSub msg "[SYS_PROMPT]" || containsSub msg "[系统指令:"))) ∧
    (qualifies msg selfId senderId = false →
      onPrivateMessage st msg selfId senderId now cid umo = st) ∧
    (qualifies msg selfId senderId = true →
      (onPrivateMessage st msg selfId senderId now cid umo).user_records.lookup senderId
        = some ⟨some now, cid, umo⟩ ∧
      (senderId ∈ st.users_received_initiative →
        (onPrivateMessage st msg selfId senderId now cid umo).consecutive_message_count.lookup senderId
          = some 0 ∧
        (∀ info, st.last_initiative_types.lookup senderId = some info →
          (onPrivateMessage st msg selfId senderId now cid umo).last_initiative_types.lookup senderId
            = some ⟨0, info.time_period, info.timestamp⟩) ∧
        senderId ∉ (onPrivateMessage st msg selfId senderId now cid umo).users_received_initiative) ∧
      (senderId ∉ st.users_received_initiative →
        (onPrivateMessage st msg selfId senderId now cid umo).consecutive_message_count
          = st.consecutive_message_count ∧
        (onPrivateMessage st msg selfId senderId now cid umo).last_initiative_types
          = st.last_initiative_types ∧
        (onPrivateMessage st msg selfId senderId now cid umo).users_received_initiative
          = st.users_received_initiative)) := by
  refine ⟨rfl, ?_, ?_⟩
  · intro hq
    simp [onPrivateMessage, hq]
  · intro hq
    simp only [onPrivateMessage, hq, if_true]
    have hrec : (handleUserMessage st senderId now cid umo).users_received_initiative
        = st.users_received_initiative := rfl
    refine ⟨?_, ?_, ?_⟩
    · by_cases hm : senderId ∈ st.users_received_initiative
      · simp only [resetAfterReply, hrec, hm, if_true]
        cases hinfo : (handleUserMessage st senderId now cid umo).last_initiative_types.lookup senderId <;>
          simp [handleUserMessage, lookup_dset]
      · simp [resetAfterReply, hrec, hm, handleUserMessage, lookup_dset]
    · intro hm
      simp only [resetAfterReply, hrec, hm, if_true]
      refine ⟨?_, ?_, ?_⟩
      · cases hinfo : (handleUserMessage st senderId now cid umo).last_initiative_types.lookup senderId <;>
          simp [lookup_dset]
      · intro info hinfo
        have hinfo2 : (handleUserMessage st senderId now cid umo).last_initiative_types.lookup senderId
            = some info := hinfo
        simp [hinfo2, lookup_dset]
      · cases hinfo : (handleUserMessage st senderId now cid umo).last_initiative_types.lookup senderId <;>
          simp [List.mem_filter]
    · intro hm
      simp [resetAfterReply, hrec, hm]
      exact ⟨rfl, rfl⟩

theorem private_message_semantics_witness :
    qualifies "hi" (some "bot") "alice" = true ∧
    "alice" ∈ (⟨[], [("alice", 2)], [], [("alice", ⟨2, "晚上", 7⟩)], ["alice"]⟩ : CoreState).users_received_initiative ∧
    (onPrivateMessage ⟨[], [("alice", 2)], [], [("alice", ⟨2, "晚上", 7⟩)], ["alice"]⟩
        "hi" (some "bot") "alice" 9 "c" "m").consecutive_message_count.lookup "alice" = some 0 ∧
    (onPrivateMessage ⟨[], [("alice", 2)], [], [("alice", ⟨2, "晚上", 7⟩)], ["alice"]⟩
        "hi" (some "bot") "alice" 9 "c" "m").user_records.lookup "alice" = some ⟨some 9, "c", "m"⟩ := by
  have h := private_message_semantics
    ⟨[], [("alice", 2)], [], [("alice", ⟨2, "晚上", 7⟩)], ["alice"]⟩
    "hi" (some "bot") "alice" 9 "c" "m"
  have h3 := h.2.2 (by decide)
  exact ⟨by decide, by decide, (h3.2.1 (by decide)).1, h3.1⟩

/-! Preservation lemmas for the cap invariant (C1). -/

theorem bounded_counts_dset (m : Nat) {counts : List (String × Nat)}
    (hb : ∀ u c, counts.lookup u = some c → c ≤ m) (uid : String) (v : Nat)
    (hv : v ≤ m) :
    ∀ u c, (dset counts uid v).lookup u = some c → c ≤ m := by
  intro u c hlk
  rw [lookup_dset] at hlk
  by_cases hu : u = uid
  · simp [hu] at hlk
    omega
  · simp [hu] at hlk
    exact hb u c hlk

theorem bounded_types_dset (m : Nat) {types : List (String × TypeInfo)}
    (hb : ∀ u i, types.lookup u = some i → i.count ≤ m) (uid : String)
    (v : TypeInfo) (hv : v.count ≤ m) :
    ∀ u i, (dset types uid v).lookup u = some i → i.count ≤ m := by
  intro u i hlk
  rw [lookup_dset] at hlk
  by_cases hu : u = uid
  · simp [hu] at hlk
    rw [← hlk]
    exact hv
  · simp [hu] at hlk
    exact hb u i hlk

theorem bounded_after_tick (cfg : Config) (now : Int) (hour : Nat)
    (st : CoreState) (h : CountsBounded cfg st) :
    CountsBounded cfg (checkTick cfg now hour st).1 := by
  have hc : (checkTick cfg now hour st).1.consecutive_message_count
      = st.consecutive_message_count := by
    unfold checkTick; split <;> rfl
  have ht : (checkTick cfg now hour st).1.last_initiative_types
      = st.last_initiative_types := by
    unfold checkTick; split <;> rfl
  exact ⟨fun u c hlk => h.1 u c (hc ▸ hlk), fun u i hlk => h.2 u i (ht ▸ hlk)⟩

theorem bounded_after_send (cfg : Config) (st : CoreState)
    (uid cid umo : String) (outcome : DeliveryOutcome) (now : Int)
    (tp : String) (h : CountsBounded cfg st) :
    CountsBounded cfg (sendInitiativeMessage cfg st uid cid umo outcome now tp) := by
  by_cases hwl : cfg.whitelist_enabled = true ∧ uid ∉ cfg.whitelist_users
  · have hres : sendInitiativeMessage cfg st uid cid umo outcome now tp = st := by
      simp [sendInitiativeMessage, hwl]
    rw [hres]; exact h
  · by_cases hcap : cfg.max_consecutive_messages < currentCount st uid + 1
    · have hres : sendInitiativeMessage cfg st uid cid umo outcome now tp = st := by
        cases outcome <;> simp [sendInitiativeMessage, hwl, hcap]
      rw [hres]; exact h
    · have hle : currentCount st uid + 1 ≤ cfg.max_consecutive_messages :=
        Nat.not_lt.mp hcap
      cases outcome with
      | raised =>
        have hres : sendInitiativeMessage cfg st uid cid umo DeliveryOutcome.raised now tp = st := by
          simp [sendInitiativeMessage, hwl, hcap]
        rw [hres]; exact h
      | returned result =>
        have hc : (sendInitiativeMessage cfg st uid cid umo (DeliveryOutcome.returned result) now tp).consecutive_message_count
            = dset st.consecutive_message_count uid (currentCount st uid + 1) := by
          by_cases hlt : currentCount st uid + 1 < cfg.max_consecutive_messages <;>
            simp [sendInitiativeMessage, hwl, hcap, hlt]
        have ht : (sendInitiativeMessage cfg st uid cid umo (DeliveryOutcome.returned result) now tp).last_initiative_types
            = dset st.last_initiative_types uid ⟨currentCount st uid + 1, tp, now⟩ := by
          by_cases hlt : currentCount st uid + 1 < cfg.max_consecutive_messages <;>
            simp [sendInitiativeMessage, hwl, hcap, hlt]
        constructor
        · intro u c hlk
          rw [hc] at hlk
          exact bounded_counts_dset cfg.max_consecutive_messages h.1 uid _ hle u c hlk
        · intro u i hlk
          rw [ht] at hlk
          exact bounded_types_dset cfg.max_consecutive_messages h.2 uid _ hle u i hlk

theorem bounded_after_reset (cfg : Config) (st : CoreState) (uid : String)
    (h : CountsBounded cfg st) : CountsBounded cfg (resetAfterReply st uid) := by
  unfold resetAfterReply
  by_cases hm : uid ∈ st.users_received_initiative
  · simp only [hm, if_true]
    split
    · rename_i info heq
      constructor
      · intro u c hlk
        exact bounded_counts_dset cfg.max_consecutive_messages h.1 uid 0
          (Nat.zero_le _) u c hlk
      · intro u i hlk
        exact bounded_types_dset cfg.max_consecutive_messages h.2 uid
          ⟨0, info.time_period, info.timestamp⟩ (Nat.zero_le _) u i hlk
    · constructor
      · intro u c hlk
        exact bounded_counts_dset cfg.max_consecutive_messages h.1 uid 0
          (Nat.zero_le _) u c hlk
      · intro u i hlk
        exact h.2 u i hlk
  · simp only [hm, if_false]
    exact h

theorem bounded_after_message (cfg : Config) (st : CoreState) (msg : String)
    (selfId : Option String) (senderId : String) (now : Int) (cid umo : String)
    (h : CountsBounded cfg st) :
    CountsBounded cfg (onPrivateMessage st msg selfId senderId now cid umo) := by
  unfold onPrivateMessage
  split
  · exact bounded_after_reset cfg (handleUserMessage st senderId now cid umo)
      senderId ⟨h.1, h.2⟩
  · exact h

/-- C1: starting from any state whose two count stores respect the cap,
no interleaving of poller ticks, firing send actions and inbound private
messages can push a consecutive-message count above
`max_consecutive_messages`; moreover a tick never nudges a user whose
count is at the cap, and a send action whose advanced count would exceed
the cap aborts with the state untouched. -/
theorem consecutive_count_never_exceeds_cap (cfg : Config) (st : CoreState)
    (steps : List CoreStep) (h : CountsBounded cfg st) :
    CountsBounded cfg (runSteps cfg st steps) ∧
    (∀ uid r now2,
      cfg.max_consecutive_messages ≤ ((st.consecutive_message_count.lookup uid).getD 0) →
      shouldNudge cfg st.consecutive_message_count now2 uid r = false) ∧
    (∀ uid cid umo outcome now2 tp2,
      cfg.max_consecutive_messages < currentCount st uid + 1 →
      sendInitiativeMessage cfg st uid cid umo outcome now2 tp2 = st) := by
  refine ⟨?_, ?_, ?_⟩
  · induction steps generalizing st with
    | nil => exact h
    | cons s rest ih =>
      have hstep : CountsBounded cfg (applyStep cfg st s) := by
        cases s with
        | tick now hour => exact bounded_after_tick cfg now hour st h
        | send uid cid umo outcome now tp =>
          exact bounded_after_send cfg st uid cid umo outcome now tp h
        | message msg selfId senderId now cid umo =>
          exact bounded_after_message cfg st msg selfId senderId now cid umo h
      exact ih (applyStep cfg st s) hstep
  · intro uid r now2 hcnt
    simp [shouldNudge, hcnt]
  · intro uid cid umo outcome now2 tp2 hcap
    cases outcome <;> simp [sendInitiativeMessage, hcap]

theorem consecutive_count_never_exceeds_cap_witness :
    CountsBounded ⟨7200, 3600, true, 8, 23, 2, false, []⟩ ⟨[], [], [], [], []⟩ ∧
    CountsBounded ⟨7200, 3600, true, 8, 23, 2, false, []⟩
      (runSteps ⟨7200, 3600, true, 8, 23, 2, false, []⟩ ⟨[], [], [], [], []⟩
        [CoreStep.send "u" "c" "m" (DeliveryOutcome.returned true) 10 "上午",
         CoreStep.send "u" "c" "m" (DeliveryOutcome.returned false) 20 "上午",
         CoreStep.send "u" "c" "m" (DeliveryOutcome.returned true) 30 "上午",
         CoreStep.message "回来了" none "u" 40 "c" "m",
         CoreStep.tick 50 12]) := by
  have hempty : CountsBounded ⟨7200, 3600, true, 8, 23, 2, false, []⟩
      (⟨[], [], [], [], []⟩ : CoreState) := by
    constructor
    · intro u c hlk
      cases hlk
    · intro u i hlk
      cases hlk
  exact ⟨hempty,
    (consecutive_count_never_exceeds_cap ⟨7200, 3600, true, 8, 23, 2, false, []⟩
      ⟨[], [], [], [], []⟩ _ hempty).1⟩

theorem lookup_eq_none_of_forall_ne {β : Type} {l : List (String × β)}
    {k : String} (h : ∀ p ∈ l, p.1 ≠ k) : l.lookup k = none := by
  induction l with
  | nil => rfl
  | cons a t ih =>
    obtain ⟨a1, a2⟩ := a
    have h1 : a1 ≠ k := h (a1, a2) (by simp)
    have hb : (k == a1) = false := by
      simp
      exact fun hc => h1 hc.symm
    simp only [List.lookup, hb]
    exact ih (fun p hp => h p (List.mem_cons_of_mem _ hp))

/-- C3: in one tick, a tracked user past the inactivity threshold who
passes the whitelist and cap gates gets exactly one nudge scheduled and
their record removed from the tracked set, and any subsequent tick on
the resulting state schedules no nudge at all for that user. -/
theorem tick_schedules_once_and_removes (cfg : Config) (st : CoreState)
    (now : Int) (hour : Nat) (u : String) (r : UserRecord)
    (hkeys : (st.user_records.map Prod.fst).Nodup)
    (hlk : st.user_records.lookup u = some r)
    (htick : tickSkipped cfg hour = false)
    (hgate : shouldNudge cfg st.consecutive_message_count now u r = true) :
    ((checkTick cfg now hour st).2.filter (fun n => n.user_id = u)).length = 1 ∧
    (checkTick cfg now hour st).1.user_records.lookup u = none ∧
    (∀ now2 hour2,
      ((checkTick cfg now2 hour2 (checkTick cfg now hour st).1).2.filter
        (fun n => n.user_id = u)) = []) := by
  have hnone : (checkTick cfg now hour st).1.user_records.lookup u = none := by
    have hres : (checkTick cfg now hour st).1.user_records
        = st.user_records.filter
            (fun p => !(shouldNudge cfg st.consecutive_message_count now p.1 p.2)) := by
      simp [checkTick, htick]
    rw [hres]
    apply lookup_eq_none_of_forall_ne
    intro p hp hpu
    have hmem := List.mem_filter.mp hp
    have hpk : p ∈ st.user_records.filter (fun q => q.1 = u) :=
      List.mem_filter.mpr ⟨hmem.1, by simp [hpu]⟩
    rw [filter_key_eq_of_lookup hkeys hlk] at hpk
    have hpe : p = (u, r) := by simpa using hpk
    subst hpe
    have := hmem.2
    simp [hgate] at this
  refine ⟨?_, hnone, ?_⟩
  · have hres : (checkTick cfg now hour st).2
        = (st.user_records.filter
            (fun p => shouldNudge cfg st.consecutive_message_count now p.1 p.2)).map
            (fun p => ⟨p.1, p.2.conversation_id, p.2.unified_msg_origin⟩) := by
      simp [checkTick, htick]
    rw [hres, List.filter_map, List.length_map, List.filter_filter]
    have hcomm : st.user_records.filter
        (fun a => ((fun n : Nudge => decide (n.user_id = u)) ∘
            (fun p : String × UserRecord =>
              (⟨p.1, p.2.conversation_id, p.2.unified_msg_origin⟩ : Nudge))) a &&
          shouldNudge cfg st.consecutive_message_count now a.1 a.2)
        = (st.user_records.filter (fun q => q.1 = u)).filter
            (fun a => shouldNudge cfg st.consecutive_message_count now a.1 a.2) := by
      rw [List.filter_filter]
      apply List.filter_congr
      intro x hx
      simp [Function.comp, Bool.and_comm]
    rw [hcomm, filter_key_eq_of_lookup hkeys hlk]
    simp [hgate]
  · intro now2 hour2
    by_cases htick2 : tickSkipped cfg hour2 = true
    · simp [checkTick, htick2]
    · have hres2 : (checkTick cfg now2 hour2 (checkTick cfg now hour st).1).2
          = ((checkTick cfg now hour st).1.user_records.filter
              (fun p => shouldNudge cfg
                (checkTick cfg now hour st).1.consecutive_message_count now2 p.1 p.2)).map
              (fun p => ⟨p.1, p.2.conversation_id, p.2.unified_msg_origin⟩) := by
        simp [checkTick, htick2]
      rw [hres2, List.filter_map]
      have hempty : ((checkTick cfg now hour st).1.user_records.filter
          (fun p => shouldNudge cfg
            (checkTick cfg now hour st).1.consecutive_message_count now2 p.1 p.2)).filter
          ((fun n : Nudge => decide (n.user_id = u)) ∘
            (fun p : String × UserRecord =>
              (⟨p.1, p.2.conversation_id, p.2.unified_msg_origin⟩ : Nudge))) = [] := by
        apply List.filter_eq_nil_iff.mpr
        intro p hp
        have hmem := List.mem_filter.mp hp
        have hne := not_mem_of_lookup_eq_none hnone p hmem.1
        simp [Function.comp, hne]
      rw [hempty]
      rfl

theorem tick_schedules_once_and_removes_witness :
    (((⟨[("u", ⟨some 0, "c", "m"⟩)], [], [], [], []⟩ : CoreState).user_records.map
        Prod.fst).Nodup ∧
      (⟨[("u", ⟨some 0, "c", "m"⟩)], [], [], [], []⟩ : CoreState).user_records.lookup "u"
        = some ⟨some 0, "c", "m"⟩ ∧
      tickSkipped ⟨7200, 3600, true, 8, 23, 3, false, []⟩ 12 = false ∧
      shouldNudge ⟨7200, 3600, true, 8, 23, 3, false, []⟩ [] 7201 "u" ⟨some 0, "c", "m"⟩
        = true) ∧
    ((checkTick ⟨7200, 3600, true, 8, 23, 3, false, []⟩ 7201 12
        ⟨[("u", ⟨some 0, "c", "m"⟩)], [], [], [], []⟩).2.filter
          (fun n => n.user_id = "u")).length = 1 ∧
    (checkTick ⟨7200, 3600, true, 8, 23, 3, false, []⟩ 7201 12
        ⟨[("u", ⟨some 0, "c", "m"⟩)], [], [], [], []⟩).1.user_records.lookup "u" = none := by
  have h := tick_schedules_once_and_removes ⟨7200, 3600, true, 8, 23, 3, false, []⟩
    ⟨[("u", ⟨some 0, "c", "m"⟩)], [], [], [], []⟩ 7201 12 "u" ⟨some 0, "c", "m"⟩
    (by decide) (by decide) (by decide) (by decide)
  exact ⟨⟨by decide, by decide, by decide, by decide⟩, h.1, h.2.1⟩

theorem mem_derase {β : Type} {l : List (String × β)} {k : String}
    {p : String × β} (h : p ∈ derase l k) : p ∈ l ∧ p.1 ≠ k := by
  induction l with
  | nil => cases h
  | cons a t ih =>
    obtain ⟨a1, a2⟩ := a
    by_cases hk : a1 = k
    · rw [show derase ((a1, a2) :: t) k = derase t k from by simp [derase, hk]] at h
      exact ⟨List.mem_cons_of_mem _ (ih h).1, (ih h).2⟩
    · rw [show derase ((a1, a2) :: t) k = (a1, a2) :: derase t k from by
        simp [derase, hk]] at h
      rcases List.mem_cons.mp h with he | ht
      · subst he
        exact ⟨List.mem_cons_self _ _, hk⟩
      · exact ⟨List.mem_cons_of_mem _ (ih ht).1, (ih ht).2⟩

theorem tickStatus_sleeping {s : TStatus} {n : Nat}
    (h : tickStatus s = TStatus.sleeping n) : ∃ m, s = TStatus.sleeping m := by
  cases s with
  | sleeping m => exact ⟨m, rfl⟩
  | finished => simp [tickStatus] at h
  | cancelled => simp [tickStatus] at h

theorem isFiring_sleeping {s : TStatus} (h : s.isFiring = true) :
    ∃ n, s = TStatus.sleeping n := by
  cases s with
  | sleeping n => exact ⟨n, rfl⟩
  | finished => simp [TStatus.isFiring] at h
  | cancelled => simp [TStatus.isFiring] at h

theorem cancelledOut_preserved (id : String) (st : TMState) (s : TMStep)
    (hs : ∀ d, s ≠ TMStep.schedule id d)
    (h : CancelledOut id st) : CancelledOut id (applyTMStep st s) := by
  cases s with
  | time =>
    constructor
    · intro p hp hpk hsl
      obtain ⟨n, hn⟩ := hsl
      rcases List.mem_map.mp hp with ⟨q, hq, he⟩
      have hqk : q.1 = id := by rw [← he] at hpk; exact hpk
      have hq2 : tickStatus q.2 = TStatus.sleeping n := by rw [← he] at hn; exact hn
      exact h.1 q hq hqk (tickStatus_sleeping hq2)
    · intro hmem
      rcases List.mem_append.mp hmem with hold | hnew
      · exact h.2 hold
      · rcases List.mem_map.mp hnew with ⟨q, hq, he⟩
        have hqf := List.mem_filter.mp hq
        exact h.1 q hqf.1 he (isFiring_sleeping hqf.2)
  | callback cid =>
    show CancelledOut id (removeDone st cid)
    unfold removeDone
    split
    · split
      · constructor
        · intro p hp hpk hsl
          exact h.1 p (mem_derase hp).1 hpk hsl
        · exact h.2
      · exact h
    · exact h
  | cancel cid =>
    show CancelledOut id (cancelTask st cid).1
    unfold cancelTask
    split
    · split
      · exact h
      · constructor
        · intro p hp hpk hsl
          rcases List.mem_cons.mp hp with he | ht
          · obtain ⟨n, hn⟩ := hsl
            rw [he] at hn
            cases hn
          · exact h.1 p (mem_derase ht).1 hpk hsl
        · exact h.2
    · exact h
  | schedule d delay =>
    have hd : d ≠ id := by
      intro hc
      exact hs delay (by rw [hc])
    constructor
    · intro p hp hpk hsl
      rcases List.mem_cons.mp hp with he | ht
      · rw [he] at hpk
        exact hd hpk
      · exact h.1 p (mem_derase ht).1 hpk hsl
    · exact h.2

/-- C8: cancelling a task whose delay has not yet elapsed returns `True`
and guarantees the task's action never executes under any subsequent
event-loop behaviour that does not reuse the task id (ids embed their
issue timestamp); cancelling an unknown or already-done task id is a
no-op returning `False`. -/
theorem cancel_before_fire_semantics (st : TMState) (id : String) (rem : Nat)
    (hsleep : st.tasks.lookup id = some (TStatus.sleeping rem))
    (hfired : id ∉ st.fired)
    (steps : List TMStep)
    (hfresh : ∀ d, TMStep.schedule id d ∉ steps) :
    (cancelTask st id).2 = true ∧
    id ∉ (runTMSteps (cancelTask st id).1 steps).fired ∧
    (∀ st2 : TMState, st2.tasks.lookup id = none →
      cancelTask st2 id = (st2, false)) ∧
    (∀ (st2 : TMState) (s : TStatus), st2.tasks.lookup id = some s →
      s.isDone = true → cancelTask st2 id = (st2, false)) := by
  have hc1 : (cancelTask st id).1 = { st with tasks := dset st.tasks id TStatus.cancelled } := by
    simp [cancelTask, hsleep, TStatus.isDone]
  have hinv : CancelledOut id (cancelTask st id).1 := by
    rw [hc1]
    constructor
    · intro p hp hpk hsl
      rcases List.mem_cons.mp hp with he | ht
      · obtain ⟨n, hn⟩ := hsl
        rw [he] at hn
        cases hn
      · exact (mem_derase ht).2 hpk
    · exact hfired
  have main : ∀ (steps2 : List TMStep) (stc : TMState),
      (∀ d, TMStep.schedule id d ∉ steps2) → CancelledOut id stc →
      CancelledOut id (runTMSteps stc steps2) := by
    intro steps2
    induction steps2 with
    | nil => exact fun stc _ hc => hc
    | cons s rest ih =>
      intro stc hfresh2 hc
      exact ih (applyTMStep stc s)
        (fun d hd => hfresh2 d (List.mem_cons_of_mem _ hd))
        (cancelledOut_preserved id stc s
          (fun d he => hfresh2 d (by rw [← he]; exact List.mem_cons_self _ _)) hc)
  refine ⟨by simp [cancelTask, hsleep, TStatus.isDone], ?_, ?_, ?_⟩
  · exact (main steps (cancelTask st id).1 hfresh hinv).2
  · intro st2 hnone
    simp [cancelTask, hnone]
  · intro st2 s hsome hdone
    simp [cancelTask, hsome, hdone]

theorem cancel_before_fire_semantics_witness :
    ([("t1", TStatus.sleeping 5)].lookup "t1" = some (TStatus.sleeping 5)) ∧
    "t1" ∉ ([] : List String) ∧
    (cancelTask ⟨[("t1", TStatus.sleeping 5)], []⟩ "t1").2 = true ∧
    "t1" ∉ (runTMSteps (cancelTask ⟨[("t1", TStatus.sleeping 5)], []⟩ "t1").1
      [TMStep.time, TMStep.time, TMStep.time, TMStep.time, TMStep.time,
       TMStep.time, TMStep.callback "t1", TMStep.schedule "t2" 3,
       TMStep.time]).fired := by
  have h := cancel_before_fire_semantics ⟨[("t1", TStatus.sleeping 5)], []⟩ "t1" 5
    (by decide) (by decide)
    [TMStep.time, TMStep.time, TMStep.time, TMStep.time, TMStep.time,
     TMStep.time, TMStep.callback "t1", TMStep.schedule "t2" 3, TMStep.time]
    (by intro d hd; simp at hd)
  exact ⟨by decide, by decide, h.1, h.2.1⟩

theorem length_sample {α : Type} (l : List α) (idx : List Nat)
    (hb : ∀ i ∈ idx, i < l.length) :
    (sample l idx).length = idx.length := by
  unfold sample
  induction idx with
  | nil => rfl
  | cons i t ih =>
    have hi : i < l.length := hb i (by simp)
    have hsome : l[i]? = some l[i] := List.getElem?_eq_getElem hi
    simp [List.filterMap_cons, hsome,
      ih (fun j hj => hb j (List.mem_cons_of_mem _ hj))]

theorem nodup_sample {α : Type} {l : List α} {idx : List Nat}
    (hl : l.Nodup) (hnd : idx.Nodup) : (sample l idx).Nodup := by
  unfold sample
  apply List.Nodup.filterMap ?_ hnd
  intro a a' b hba hba'
  have ha : l[a]? = some b := hba
  have ha' : l[a']? = some b := hba'
  have hlt : a < l.length := by
    rcases List.getElem?_eq_some.mp ha with ⟨h, _⟩
    exact h
  exact List.getElem?_inj hlt hl (ha.trans ha'.symm)

/-- C7: for every candidate list, `select_random_users` returns exactly
`min(max(min_count, floor(len * ratio)), len)` users, contains no
duplicates whenever the candidates are distinct (the draw uses distinct
positions), and returns the empty list on an empty candidate list. -/
theorem select_random_users_spec (l : List (String × UserRecord))
    (ratio : ℚ) (min_count : Nat) (rng : Nat → List Nat)
    (hrng : ∀ k, k ≤ l.length → SampleDraw l.length k (rng k)) :
    (selectRandomUsers l ratio min_count rng).length
      = min (max min_count (Int.toNat ⌊(l.length : ℚ) * ratio⌋)) l.length ∧
    (l.Nodup → (selectRandomUsers l ratio min_count rng).Nodup) ∧
    selectRandomUsers [] ratio min_count rng = [] := by
  refine ⟨?_, ?_, rfl⟩
  · by_cases hl : l.isEmpty
    · have hnil : l = [] := List.isEmpty_iff.mp hl
      subst hnil
      simp [selectRandomUsers]
    · obtain ⟨hnd, hb, hlen⟩ := hrng
        (min (selectionCount l.length ratio min_count) l.length)
        (Nat.min_le_right _ _)
      unfold selectRandomUsers
      rw [if_neg hl, length_sample l _ hb, hlen]
      rfl
  · intro hlnd
    by_cases hl : l.isEmpty
    · have hnil : l = [] := List.isEmpty_iff.mp hl
      subst hnil
      simp [selectRandomUsers]
    · obtain ⟨hnd, hb, hlen⟩ := hrng
        (min (selectionCount l.length ratio min_count) l.length)
        (Nat.min_le_right _ _)
      unfold selectRandomUsers
      rw [if_neg hl]
      exact nodup_sample hlnd hnd

theorem select_random_users_spec_witness :
    (∀ k, k ≤ ([("u0", ⟨some 0, "c", "m"⟩), ("u1", ⟨some 0, "c", "m"⟩),
        ("u2", ⟨some 0, "c", "m"⟩), ("u3", ⟨some 0, "c", "m"⟩),
        ("u4", ⟨some 0, "c", "m"⟩), ("u5", ⟨some 0, "c", "m"⟩),
        ("u6", ⟨some 0, "c", "m"⟩), ("u7", ⟨some 0, "c", "m"⟩),
        ("u8", ⟨some 0, "c", "m"⟩), ("u9", ⟨some 0, "c", "m"⟩)] :
          List (String × UserRecord)).length →
      SampleDraw 10 k (List.range k)) ∧
    (selectRandomUsers [("u0", ⟨some 0, "c", "m"⟩), ("u1", ⟨some 0, "c", "m"⟩),
        ("u2", ⟨some 0, "c", "m"⟩), ("u3", ⟨some 0, "c", "m"⟩),
        ("u4", ⟨some 0, "c", "m"⟩), ("u5", ⟨some 0, "c", "m"⟩),
        ("u6", ⟨some 0, "c", "m"⟩), ("u7", ⟨some 0, "c", "m"⟩),
        ("u8", ⟨some 0, "c", "m"⟩), ("u9", ⟨some 0, "c", "m"⟩)]
        (2 / 5) 1 List.range).length = 4 ∧
    (selectRandomUsers [("u0", ⟨some 0, "c", "m"⟩), ("u1", ⟨some 0, "c", "m"⟩),
        ("u2", ⟨some 0, "c", "m"⟩), ("u3", ⟨some 0, "c", "m"⟩),
        ("u4", ⟨some 0, "c", "m"⟩), ("u5", ⟨some 0, "c", "m"⟩),
        ("u6", ⟨some 0, "c", "m"⟩), ("u7", ⟨some 0, "c", "m"⟩),
        ("u8", ⟨some 0, "c", "m"⟩), ("u9", ⟨some 0, "c", "m"⟩)]
        (2 / 5) 1 List.range).Nodup := by
  have h := select_random_users_spec
    [("u0", ⟨some 0, "c", "m"⟩), ("u1", ⟨some 0, "c", "m"⟩),
     ("u2", ⟨some 0, "c", "m"⟩), ("u3", ⟨some 0, "c", "m"⟩),
     ("u4", ⟨some 0, "c", "m"⟩), ("u5", ⟨some 0, "c", "m"⟩),
     ("u6", ⟨some 0, "c", "m"⟩), ("u7", ⟨some 0, "c", "m"⟩),
     ("u8", ⟨some 0, "c", "m"⟩), ("u9", ⟨some 0, "c", "m"⟩)]
    (2 / 5) 1 List.range (by decide)
  refine ⟨by decide, ?_, h.2.1 (by decide)⟩
  rw [h.1]
  have hlen : ([("u0", ⟨some 0, "c", "m"⟩), ("u1", ⟨some 0, "c", "m"⟩),
      ("u2", ⟨some 0, "c", "m"⟩), ("u3", ⟨some 0, "c", "m"⟩),
      ("u4", ⟨some 0, "c", "m"⟩), ("u5", ⟨some 0, "c", "m"⟩),
      ("u6", ⟨some 0, "c", "m"⟩), ("u7", ⟨some 0, "c", "m"⟩),
      ("u8", ⟨some 0, "c", "m"⟩), ("u9", ⟨some 0, "c", "m"⟩)] :
        List (String × UserRecord)).length = 10 := rfl
  rw [hlen]
  have hfl : ⌊((10 : Nat) : ℚ) * (2 / 5)⌋ = (4 : ℤ) := by
    rw [Int.floor_eq_iff]
    constructor <;> norm_num
  rw [hfl]
  decide

/-! Digit-level round-trip lemmas for the ISO renderer and parser. -/

theorem charToDigit_digitChar {n : Nat} (h : n < 10) :
    charToDigit (Nat.digitChar n) = some n := by
  interval_cases n <;> decide

theorem parse2_digits {n : Nat} (h : n < 100) :
    parse2 (Nat.digitChar (n / 10)) (Nat.digitChar (n % 10)) = some n := by
  have h1 : n / 10 < 10 := by omega
  have h2 : n % 10 < 10 := by omega
  unfold parse2
  rw [charToDigit_digitChar h1, charToDigit_digitChar h2]
  show some (10 * (n / 10) + n % 10) = some n
  congr 1
  omega

theorem parse4_digits {n : Nat} (h : n < 10000) :
    parse4 (Nat.digitChar (n / 1000)) (Nat.digitChar (n / 100 % 10))
      (Nat.digitChar (n / 10 % 10)) (Nat.digitChar (n % 10)) = some n := by
  have h1 : n / 1000 < 10 := by omega
  have h2 : n / 100 % 10 < 10 := by omega
  have h3 : n / 10 % 10 < 10 := by omega
  have h4 : n % 10 < 10 := by omega
  unfold parse4
  rw [charToDigit_digitChar h1, charToDigit_digitChar h2,
    charToDigit_digitChar h3, charToDigit_digitChar h4]
  show some (1000 * (n / 1000) + 100 * (n / 100 % 10) + 10 * (n / 10 % 10) + n % 10)
    = some n
  congr 1
  omega

theorem parse6_digits {n : Nat} (h : n < 1000000) :
    parse6 (Nat.digitChar (n / 100000)) (Nat.digitChar (n / 10000 % 10))
      (Nat.digitChar (n / 1000 % 10)) (Nat.digitChar (n / 100 % 10))
      (Nat.digitChar (n / 10 % 10)) (Nat.digitChar (n % 10)) = some n := by
  have h1 : n / 100000 < 10 := by omega
  have h2 : n / 10000 % 10 < 10 := by omega
  have h3 : n / 1000 % 10 < 10 := by omega
  have h4 : n / 100 % 10 < 10 := by omega
  have h5 : n / 10 % 10 < 10 := by omega
  have h6 : n % 10 < 10 := by omega
  unfold parse6
  rw [charToDigit_digitChar h1, charToDigit_digitChar h2,
    charToDigit_digitChar h3, charToDigit_digitChar h4,
    charToDigit_digitChar h5, charToDigit_digitChar h6]
  show some (100000 * (n / 100000) + 10000 * (n / 10000 % 10) +
    1000 * (n / 1000 % 10) + 100 * (n / 100 % 10) + 10 * (n / 10 % 10) + n % 10)
    = some n
  congr 1
  omega

theorem daysInMonth_le (y m : Nat) : daysInMonth y m ≤ 31 := by
  unfold daysInMonth
  split
  · split <;> omega
  · split <;> omega

/-- Every valid datetime survives the textual round trip: parsing its ISO
rendering returns it unchanged. -/
theorem fromisoformat_isoformat {d : Datetime} (h : d.validB = true) :
    fromisoformat d.isoformat = some d := by
  obtain ⟨y, mo, da, hh, mi, se, us⟩ := d
  have hb := h
  simp only [Datetime.validB, Bool.and_eq_true, decide_eq_true_eq] at hb
  obtain ⟨⟨⟨⟨⟨⟨⟨⟨⟨hy1, hy2⟩, hm1⟩, hm2⟩, hd1⟩, hd2⟩, hh1⟩, hmi1⟩, hs1⟩, hus1⟩ := hb
  have hdm := daysInMonth_le y mo
  show fromisoChars (isoformatChars ⟨y, mo, da, hh, mi, se, us⟩) = _
  by_cases hus : us = 0
  · subst hus
    have hiso : isoformatChars ⟨y, mo, da, hh, mi, se, 0⟩
        = fourDigits y ++ '-' :: twoDigits mo ++ '-' :: twoDigits da ++
          'T' :: twoDigits hh ++ ':' :: twoDigits mi ++ ':' :: twoDigits se ++ [] := by
      unfold isoformatChars
      rw [if_pos rfl]
    rw [hiso]
    simp only [fourDigits, twoDigits, List.cons_append, List.nil_append,
      List.append_nil]
    rw [fromisoChars]
    rw [parse4_digits (by omega), parse2_digits (by omega : mo < 100),
      parse2_digits (by omega : da < 100), parse2_digits (by omega : hh < 100),
      parse2_digits (by omega : mi < 100), parse2_digits (by omega : se < 100)]
    simp only [Option.bind_eq_bind, Option.some_bind]
    rw [show parseFrac [] = some 0 from rfl]
    simp only [Option.some_bind]
    rw [if_pos h]
  · have hne : ¬ us = 0 := hus
    have hiso : isoformatChars ⟨y, mo, da, hh, mi, se, us⟩
        = fourDigits y ++ '-' :: twoDigits mo ++ '-' :: twoDigits da ++
          'T' :: twoDigits hh ++ ':' :: twoDigits mi ++ ':' :: twoDigits se ++
          '.' :: sixDigits us := by
      unfold isoformatChars
      rw [if_neg hne]
    rw [hiso]
    simp only [fourDigits, twoDigits, sixDigits, List.cons_append, List.nil_append]
    rw [fromisoChars]
    rw [parse4_digits (by omega), parse2_digits (by omega : mo < 100),
      parse2_digits (by omega : da < 100), parse2_digits (by omega : hh < 100),
      parse2_digits (by omega : mi < 100), parse2_digits (by omega : se < 100)]
    simp only [Option.bind_eq_bind, Option.some_bind]
    rw [show ∀ u1 u2 u3 u4 u5 u6, parseFrac ('.' :: u1 :: u2 :: u3 :: u4 :: u5 :: u6 :: [])
      = parse6 u1 u2 u3 u4 u5 u6 from fun _ _ _ _ _ _ => rfl]
    rw [parse6_digits (by omega)]
    simp only [Option.some_bind]
    rw [if_pos h]

theorem list_map_self {α : Type} {l : List α} {f : α → α}
    (h : ∀ x ∈ l, f x = x) : l.map f = l := by
  induction l with
  | nil => rfl
  | cons a t ih =>
    simp only [List.map_cons]
    rw [h a (by simp), ih (fun x hx => h x (List.mem_cons_of_mem _ hx))]

/-- C6: serialising the persisted fields and deserialising them back is
the identity: every datetime round-trips through its ISO text, and the
`users_received_initiative` set round-trips through its list rendering
back into a set — for arbitrary user ids, non-ASCII included. -/
theorem persist_round_trip (p : PersistFields) (now : Datetime)
    (h1 : ∀ q ∈ p.user_records, (q.2).validB = true)
    (h2 : ∀ q ∈ p.last_initiative_messages, (q.2).validB = true)
    (h3 : ∀ q ∈ p.last_initiative_types, (q.2).validB = true)
    (h4 : ∀ q ∈ p.last_sharing_time, (q.2).validB = true) :
    loadPersist now (savePersist p) = p := by
  obtain ⟨ur, lm, lt, ls, s⟩ := p
  simp only [savePersist, loadPersist, PersistFields.mk.injEq, List.map_map]
  refine ⟨?_, ?_, ?_, ?_, ?_⟩
  · apply list_map_self
    intro q hq
    obtain ⟨k, d⟩ := q
    simp [Function.comp, fromisoformat_isoformat (h1 (k, d) hq)]
  · apply list_map_self
    intro q hq
    obtain ⟨k, d⟩ := q
    simp [Function.comp, fromisoformat_isoformat (h2 (k, d) hq)]
  · apply list_map_self
    intro q hq
    obtain ⟨k, d⟩ := q
    simp [Function.comp, fromisoformat_isoformat (h3 (k, d) hq)]
  · apply list_map_self
    intro q hq
    obtain ⟨k, d⟩ := q
    simp [Function.comp, fromisoformat_isoformat (h4 (k, d) hq)]
  · exact Finset.sort_toFinset _ s

theorem persist_round_trip_witness :
    (∀ q ∈ ([("用户甲", ⟨2024, 3, 10, 2, 30, 0, 0⟩)] :
        List (String × Datetime)), (q.2).validB = true) ∧
    (∀ q ∈ ([("用户甲", ⟨2025, 10, 26, 1, 59, 59, 123456⟩)] :
        List (String × Datetime)), (q.2).validB = true) ∧
    (∀ q ∈ ([("bob", ⟨2024, 2, 29, 23, 59, 59, 1⟩)] :
        List (String × Datetime)), (q.2).validB = true) ∧
    (∀ q ∈ ([("用户乙", ⟨2024, 12, 31, 0, 0, 0, 999999⟩)] :
        List (String × Datetime)), (q.2).validB = true) ∧
    loadPersist ⟨2026, 1, 1, 0, 0, 0, 0⟩
      (savePersist ⟨[("用户甲", ⟨2024, 3, 10, 2, 30, 0, 0⟩)],
        [("用户甲", ⟨2025, 10, 26, 1, 59, 59, 123456⟩)],
        [("bob", ⟨2024, 2, 29, 23, 59, 59, 1⟩)],
        [("用户乙", ⟨2024, 12, 31, 0, 0, 0, 999999⟩)],
        {"用户甲", "用户乙"}⟩)
      = ⟨[("用户甲", ⟨2024, 3, 10, 2, 30, 0, 0⟩)],
        [("用户甲", ⟨2025, 10, 26, 1, 59, 59, 123456⟩)],
        [("bob", ⟨2024, 2, 29, 23, 59, 59, 1⟩)],
        [("用户乙", ⟨2024, 12, 31, 0, 0, 0, 999999⟩)],
        {"用户甲", "用户乙"}⟩ := by
  refine ⟨by decide, by decide, by decide, by decide, ?_⟩
  exact persist_round_trip
    ⟨[("用户甲", ⟨2024, 3, 10, 2, 30, 0, 0⟩)],
     [("用户甲", ⟨2025, 10, 26, 1, 59, 59, 123456⟩)],
     [("bob", ⟨2024, 2, 29, 23, 59, 59, 1⟩)],
     [("用户乙", ⟨2024, 12, 31, 0, 0, 0, 999999⟩)],
     {"用户甲", "用户乙"}⟩
    ⟨2026, 1, 1, 0, 0, 0, 0⟩
    (by decide) (by decide) (by decide) (by decide)

end InitiativeDialogue
